import Mathlib

/-!
Verification of the document/widget binding and synchronization core:
the document model (docregistry/default.ts) and the file-editor code
wrapper (fileeditor/widget.ts), shallowly embedded as pure Lean
functions over explicit state, with notification emission modelled as
an explicit trace of events paired with the model state at the moment
of emission.
-/

namespace JLab

/-! ## String helpers (JS `String.prototype` operations used by the code) -/

/-- Substring containment on character lists: JS `String.includes`. -/
def containsL (pat : List Char) : List Char → Bool
  | [] => pat.isPrefixOf []
  | c :: rest => pat.isPrefixOf (c :: rest) || containsL pat rest

/-- Remove the first occurrence of `pat`: JS `String.replace(pat, two-quote-empty)`
with a plain-string pattern, which rewrites only the first match. -/
def replaceFirstL (pat : List Char) : List Char → List Char
  | [] => []
  | c :: rest =>
    if pat.isPrefixOf (c :: rest) then (c :: rest).drop pat.length
    else c :: replaceFirstL pat rest

/-- JS `String.includes` lifted to `String`. -/
def containsSub (pat s : String) : Bool :=
  containsL pat.data s.data

/-- JS `String.replace(pat, empty)` (first occurrence only) lifted to `String`. -/
def replaceFirst (pat s : String) : String :=
  ⟨replaceFirstL pat.data s.data⟩

/-! ## JSON values

The host JSON facilities (`JSON.parse` / `JSON.stringify`) used by
`DocumentModel.toJSON` / `fromJSON` are JavaScript builtins, not code of
this repository.  Modelled from the spec: the structured accessors
"parse/serialize via the string form"; we embed the JSON grammar with
integer numerals (host numbers are floating point, which we do not
model) and prove the printer/parser pair correct. -/

/-- JSON-serializable values: null, booleans, (integer) numbers, strings,
arrays and objects. -/
inductive JSONValue : Type where
  | null : JSONValue
  | bool : Bool → JSONValue
  | num : Int → JSONValue
  | str : String → JSONValue
  | arr : List JSONValue → JSONValue
  | obj : List (String × JSONValue) → JSONValue

/-- The decimal digit character for `d < 10`. -/
def digitChar (d : Nat) : Char :=
  Char.ofNat (48 + d)

/-- Big-endian decimal digits of a natural number (JS number printing,
restricted to naturals). -/
def natChars (n : Nat) : List Char :=
  if n = 0 then ['0'] else ((Nat.digits 10 n).map digitChar).reverse

/-- The low hexadecimal digit characters used in `\u00XX` escapes. -/
def hexChar (d : Nat) : Char :=
  if d < 10 then Char.ofNat (48 + d) else Char.ofNat (87 + d)

/-- JSON string escaping of one character, as `JSON.stringify` produces it
for the characters we model: quote and backslash get two-character
escapes, control characters become `\u00XX`, everything else is literal. -/
def escapeChar (c : Char) : List Char :=
  if c = '"' then ['\\', '"']
  else if c = '\\' then ['\\', '\\']
  else if c = '\x08' then ['\\', 'b']
  else if c = '\x0c' then ['\\', 'f']
  else if c = '\n' then ['\\', 'n']
  else if c = '\r' then ['\\', 'r']
  else if c = '\t' then ['\\', 't']
  else if c.toNat < 32 then
    ['\\', 'u', '0', '0', hexChar (c.toNat / 16), hexChar (c.toNat % 16)]
  else [c]

/-- JSON escaping of a character list. -/
def escapeChars : List Char → List Char
  | [] => []
  | c :: cs => escapeChar c ++ escapeChars cs

/-- A JSON string literal, quotes included. -/
def stringLit (s : String) : List Char :=
  '"' :: escapeChars s.data ++ ['"']

mutual

/-- `JSON.stringify` (compact form, no inserted whitespace). -/
def stringifyL : JSONValue → List Char
  | .null => "null".data
  | .bool true => "true".data
  | .bool false => "false".data
  | .num n => if n < 0 then '-' :: natChars n.natAbs else natChars n.natAbs
  | .str s => stringLit s
  | .arr [] => ['[', ']']
  | .arr (v :: vs) => '[' :: (stringifyL v ++ stringifyItems vs) ++ [']']
  | .obj [] => ['{', '}']
  | .obj (f :: fs) => '{' :: (stringifyField f ++ stringifyFields fs) ++ ['}']

/-- Remaining array items, each preceded by a comma. -/
def stringifyItems : List JSONValue → List Char
  | [] => []
  | v :: vs => ',' :: stringifyL v ++ stringifyItems vs

/-- One object field, `"key":value`. -/
def stringifyField : String × JSONValue → List Char
  | (k, v) => stringLit k ++ ':' :: stringifyL v

/-- Remaining object fields, each preceded by a comma. -/
def stringifyFields : List (String × JSONValue) → List Char
  | [] => []
  | f :: fs => ',' :: stringifyField f ++ stringifyFields fs

end

/-- `JSON.stringify` on `String`s. -/
def jsonStringify (v : JSONValue) : String :=
  ⟨stringifyL v⟩

/-! ### JSON parsing (`JSON.parse`), recursive descent with explicit fuel -/

/-- JSON insignificant whitespace. -/
def isWs (c : Char) : Bool :=
  c = ' ' || c = '\t' || c = '\n' || c = '\r'

/-- Drop leading JSON whitespace. -/
def skipWs : List Char → List Char
  | [] => []
  | c :: cs => if isWs c then skipWs cs else c :: cs

/-- Split a leading run of decimal digits from the input. -/
def splitDigits : List Char → List Char × List Char
  | [] => ([], [])
  | c :: cs =>
    if c.isDigit then
      let p := splitDigits cs
      (c :: p.1, p.2)
    else ([], c :: cs)

/-- Numeric value of a big-endian decimal digit list. -/
def digitsToNat (ds : List Char) : Nat :=
  ds.foldl (fun a c => a * 10 + (c.toNat - 48)) 0

/-- Numeric value of a hexadecimal digit character, if it is one. -/
def hexVal (c : Char) : Option Nat :=
  if '0' ≤ c ∧ c ≤ '9' then some (c.toNat - 48)
  else if 'a' ≤ c ∧ c ≤ 'f' then some (c.toNat - 87)
  else if 'A' ≤ c ∧ c ≤ 'F' then some (c.toNat - 55)
  else none

/-- Parse the body of a JSON string literal (opening quote already
consumed), returning the decoded characters and the input after the
closing quote. -/
def parseStrAux : List Char → Except String (List Char × List Char)
  | [] => .error "unterminated string"
  | c :: cs =>
    if c = '"' then .ok ([], cs)
    else if c = '\\' then
      match cs with
      | [] => .error "bad escape"
      | e :: cs1 =>
        if e = 'u' then
          match cs1 with
          | h1 :: h2 :: h3 :: h4 :: cs2 =>
            match hexVal h1, hexVal h2, hexVal h3, hexVal h4 with
            | some a, some b, some cc, some d =>
              let n := ((a * 16 + b) * 16 + cc) * 16 + d
              if n.isValidChar then
                match parseStrAux cs2 with
                | .ok (s, rest) => .ok (Char.ofNat n :: s, rest)
                | .error m => .error m
              else .error "bad code point"
            | _, _, _, _ => .error "bad hex digit"
          | _ => .error "bad unicode escape"
        else
          match
            (if e = '"' then some '"'
             else if e = '\\' then some '\\'
             else if e = '/' then some '/'
             else if e = 'b' then some (Char.ofNat 8)
             else if e = 'f' then some (Char.ofNat 12)
             else if e = 'n' then some '\n'
             else if e = 'r' then some '\r'
             else if e = 't' then some '\t'
             else none) with
          | some d =>
            match parseStrAux cs1 with
            | .ok (s, rest) => .ok (d :: s, rest)
            | .error m => .error m
          | none => .error "bad escape char"
    else if c.toNat < 32 then .error "control character in string"
    else
      match parseStrAux cs with
      | .ok (s, rest) => .ok (c :: s, rest)
      | .error m => .error m

/-- Parse a JSON number (integer numerals only in this model). -/
def parseNum (cs : List Char) : Except String (Int × List Char) :=
  match cs with
  | [] => .error "expected digits"
  | c :: cs1 =>
    if c = '-' then
      let p := splitDigits cs1
      if p.1.isEmpty then .error "expected digits"
      else .ok (-(digitsToNat p.1 : Int), p.2)
    else
      let p := splitDigits (c :: cs1)
      if p.1.isEmpty then .error "expected digits"
      else .ok ((digitsToNat p.1 : Int), p.2)

/-- Whether the input starts with the given character. -/
def headIs (c : Char) : List Char → Bool
  | [] => false
  | x :: _ => x = c

/-- Whether the input does not start with a decimal digit (used to state
that a printed number is followed by a delimiter). -/
def digitFree : List Char → Bool
  | [] => true
  | c :: _ => !c.isDigit

/-- Consume an exact keyword tail and return `v`. -/
def litVal (pat : List Char) (v : JSONValue) (cs : List Char) :
    Except String (JSONValue × List Char) :=
  if pat.isPrefixOf cs then .ok (v, cs.drop pat.length)
  else .error "bad literal"

mutual

/-- Parse one JSON value (leading whitespace allowed). -/
def parseVal : Nat → List Char → Except String (JSONValue × List Char)
  | 0, _ => .error "out of fuel"
  | fuel + 1, cs =>
    match skipWs cs with
    | [] => .error "unexpected end of input"
    | c :: rest =>
      if c = 'n' then litVal ['u', 'l', 'l'] .null rest
      else if c = 't' then litVal ['r', 'u', 'e'] (.bool true) rest
      else if c = 'f' then litVal ['a', 'l', 's', 'e'] (.bool false) rest
      else if c = '"' then
        match parseStrAux rest with
        | .ok (s, rest1) => .ok (.str ⟨s⟩, rest1)
        | .error m => .error m
      else if c = '[' then
        let t := skipWs rest
        if headIs ']' t then .ok (.arr [], t.drop 1)
        else
          match parseVal fuel t with
          | .ok (v, rest2) =>
            (match parseItems fuel rest2 with
             | .ok (vs, rest3) => .ok (.arr (v :: vs), rest3)
             | .error m => .error m)
          | .error m => .error m
      else if c = '{' then
        let t := skipWs rest
        if headIs '}' t then .ok (.obj [], t.drop 1)
        else
          match parseField fuel t with
          | .ok (f, rest2) =>
            (match parseFields fuel rest2 with
             | .ok (fs, rest3) => .ok (.obj (f :: fs), rest3)
             | .error m => .error m)
          | .error m => .error m
      else
        match parseNum (c :: rest) with
        | .ok (n, rest1) => .ok (.num n, rest1)
        | .error m => .error m

/-- Parse the remaining array items after the first one: either a closing
bracket or a comma followed by a value. -/
def parseItems : Nat → List Char → Except String (List JSONValue × List Char)
  | 0, _ => .error "out of fuel"
  | fuel + 1, cs =>
    let t := skipWs cs
    if headIs ']' t then .ok ([], t.drop 1)
    else if headIs ',' t then
      match parseVal fuel (t.drop 1) with
      | .ok (v, rest1) =>
        (match parseItems fuel rest1 with
         | .ok (vs, rest2) => .ok (v :: vs, rest2)
         | .error m => .error m)
      | .error m => .error m
    else .error "expected comma or bracket"

/-- Parse one object field: a string key, a colon and a value. -/
def parseField : Nat → List Char → Except String ((String × JSONValue) × List Char)
  | 0, _ => .error "out of fuel"
  | fuel + 1, cs =>
    let t := skipWs cs
    if headIs '"' t then
      match parseStrAux (t.drop 1) with
      | .ok (k, rest1) =>
        let t2 := skipWs rest1
        if headIs ':' t2 then
          match parseVal fuel (t2.drop 1) with
          | .ok (v, rest3) => .ok ((⟨k⟩, v), rest3)
          | .error m => .error m
        else .error "expected colon"
      | .error m => .error m
    else .error "expected string key"

/-- Parse the remaining object fields after the first one. -/
def parseFields : Nat → List Char → Except String (List (String × JSONValue) × List Char)
  | 0, _ => .error "out of fuel"
  | fuel + 1, cs =>
    let t := skipWs cs
    if headIs '}' t then .ok ([], t.drop 1)
    else if headIs ',' t then
      match parseField fuel (t.drop 1) with
      | .ok (f, rest1) =>
        (match parseFields fuel rest1 with
         | .ok (fs, rest2) => .ok (f :: fs, rest2)
         | .error m => .error m)
      | .error m => .error m
    else .error "expected comma or brace"

end

/-- `JSON.parse`: parse a complete JSON document, rejecting trailing
content other than whitespace. -/
def jsonParse (s : String) : Except String JSONValue :=
  match parseVal (s.length + 1) s.data with
  | .error m => .error m
  | .ok (v, rest) =>
    match skipWs rest with
    | [] => .ok v
    | _ => .error "unexpected trailing content"

mutual

/-- Fuel sufficient for `parseVal` on the printed form of a value. -/
def needV : JSONValue → Nat
  | .null => 1
  | .bool _ => 1
  | .num _ => 1
  | .str _ => 1
  | .arr [] => 1
  | .arr (v :: vs) => 1 + max (needV v) (needI vs)
  | .obj [] => 1
  | .obj (f :: fs) => 1 + max (needFld f) (needFs fs)

/-- Fuel sufficient for `parseItems` on printed trailing items. -/
def needI : List JSONValue → Nat
  | [] => 1
  | v :: vs => 1 + max (needV v) (needI vs)

/-- Fuel sufficient for `parseField` on a printed field. -/
def needFld : String × JSONValue → Nat
  | (_, v) => 1 + needV v

/-- Fuel sufficient for `parseFields` on printed trailing fields. -/
def needFs : List (String × JSONValue) → Nat
  | [] => 1
  | f :: fs => 1 + max (needFld f) (needFs fs)

end

/-! ## The document model (`DocumentModel`, docregistry/default.ts)

State is the observable text buffer plus the dirty / read-only flags and
the default language hint.  Signal emission is modelled as an explicit
trace: each emitted notification is paired with the model state at the
moment of emission, so a synchronously invoked handler reads exactly the
state it would observe in the source. -/

/-- Payload of a state-changed notification (`IChangedArgs`,
coreutils/src/interfaces.ts); the changed attributes here are the two
boolean flags. -/
structure IChangedArgs where
  name : String
  oldValue : Bool
  newValue : Bool
  deriving DecidableEq

/-- A notification emitted by the document model: `contentChanged` or
`stateChanged`. -/
inductive ModelEvent : Type where
  | contentChanged : ModelEvent
  | stateChanged : IChangedArgs → ModelEvent
  deriving DecidableEq

/-- The document model state (`DocumentModel`): the observable string
`value.text`, the `dirty` and `readOnly` flags, and the default
language hint set at construction. -/
structure DocumentModel where
  text : String
  dirty : Bool
  readOnly : Bool
  defaultLang : String
  deriving DecidableEq

/-- An event paired with the model state at the moment of its emission. -/
abbrev Traced := ModelEvent × DocumentModel

namespace DocumentModel

/-- `toString()`: serialize the model to a string (returns `value.text`). -/
def toStr (m : DocumentModel) : String :=
  m.text

/-- The `dirty` setter: early-exit without notification when the value is
unchanged; otherwise update and emit one state-changed notification with
the attribute name and the old and new values. -/
def setDirty (m : DocumentModel) (newValue : Bool) : DocumentModel × List Traced :=
  if newValue = m.dirty then (m, [])
  else
    let m1 : DocumentModel := { m with dirty := newValue }
    (m1, [(.stateChanged { name := "dirty", oldValue := m.dirty, newValue := newValue }, m1)])

/-- The `readOnly` setter, same shape as the `dirty` setter. -/
def setReadOnly (m : DocumentModel) (newValue : Bool) : DocumentModel × List Traced :=
  if newValue = m.readOnly then (m, [])
  else
    let m1 : DocumentModel := { m with readOnly := newValue }
    (m1, [(.stateChanged { name := "readOnly", oldValue := m.readOnly, newValue := newValue }, m1)])

/-- `triggerContentChange()`: emit `contentChanged`, then set the dirty
flag through its setter.  The content-changed notification is emitted
while `dirty` still holds its previous value. -/
def triggerContentChange (m : DocumentModel) : DocumentModel × List Traced :=
  let p := m.setDirty true
  (p.1, (.contentChanged, m) :: p.2)

/-- Assignment to the observable string `value.text`.  Modelled from the
spec: the observable string itself (jupyterlab/observables) is not under
src/; per the spec the assignment replaces the buffer content and always
fires the changed signal, with no early-exit equality check, and the
constructor connects that signal to `triggerContentChange`. -/
def setValueText (m : DocumentModel) (value : String) : DocumentModel × List Traced :=
  triggerContentChange { m with text := value }

/-- `fromString(value)`: deserialize the model from a string. -/
def fromString (m : DocumentModel) (value : String) : DocumentModel × List Traced :=
  m.setValueText value

/-- `toJSON()`: `JSON.parse(this.value.text || 'null')` — the JS
or-else takes the literal string `null` when the buffer is empty. -/
def toJSON (m : DocumentModel) : Except String JSONValue :=
  jsonParse (if m.text = "" then "null" else m.text)

/-- `fromJSON(value)`: `this.fromString(JSON.stringify(value))`. -/
def fromJSON (m : DocumentModel) (value : JSONValue) : DocumentModel × List Traced :=
  m.fromString (jsonStringify value)

end DocumentModel

/-! ## The editor adapter and its widget (`FileEditorCodeWrapper`,
fileeditor/widget.ts)

Modelled from the spec: the pluggable editor surface
(`CodeEditorWrapper` / `CodeEditor`, jupyterlab/codeeditor) is not under
src/; per the spec the adapter holds a mirrored text value, a
cursor/selection set mapping collaborator identifiers to selection
ranges, and an editing history buffer.  Writing the mirrored buffer
records an entry in the editing history (so a write is undoable) and
bumps a ghost write counter used to observe buffer mutations;
`clearHistory()` empties the history. -/

/-- The class name added to a dirty widget (`DIRTY_CLASS`). -/
def DIRTY_CLASS : String := "jp-mod-dirty"

/-- A collaborator roster (`modelDB.collaborators`).  Modelled from the
spec: the collaborative backend is not under src/; the roster exposes
the local collaborator identity and membership of identifiers. -/
structure Roster where
  localSessionId : String
  localColor : String
  members : List String
  deriving DecidableEq

/-- `collaborators.has(key)`. -/
def Roster.hasId (r : Roster) (key : String) : Bool :=
  r.members.contains key

/-- The editor wrapper state: the adapter fields (mirrored text,
editing history, selection map, identity and selection style), the
widget title class, the disposed flag, which model signals are
connected, and whether the ready promise has been resolved.
`bufferWrites` is a ghost counter of mirrored-buffer writes. -/
structure Wrapper where
  editorText : String
  history : List String
  bufferWrites : Nat
  selections : List (String × String)
  titleClassName : String
  uuid : String
  selectionStyleColor : String
  disposed : Bool
  stateChangedConnected : Bool
  contentChangedConnected : Bool
  collabChangedConnected : Bool
  readyResolved : Bool
  deriving DecidableEq

/-- The combined system: the context's document model and the wrapper
bound to it. -/
structure Sys where
  model : DocumentModel
  w : Wrapper
  deriving DecidableEq

namespace Wrapper

/-- Write the adapter's mirrored buffer (`editor.model.value.text = v`):
records an editing-history entry and bumps the ghost write counter. -/
def setEditorText (w : Wrapper) (v : String) : Wrapper :=
  { w with editorText := v, history := v :: w.history, bufferWrites := w.bufferWrites + 1 }

/-- `editor.clearHistory()`. -/
def clearHistory (w : Wrapper) : Wrapper :=
  { w with history := [] }

/-- `_handleDirtyState()`: append the dirty class to the title class
name when the model is dirty, otherwise remove its first occurrence
(JS `String.replace` with a string pattern). -/
def handleDirtyState (w : Wrapper) (model : DocumentModel) : Wrapper :=
  if model.dirty then
    { w with titleClassName := w.titleClassName ++ " " ++ DIRTY_CLASS }
  else
    { w with titleClassName := replaceFirst DIRTY_CLASS w.titleClassName }

/-- `_onContentChanged()`: re-seed the mirrored buffer from the model's
serialized text only when the two differ (echo suppression). -/
def onContentChanged (w : Wrapper) (model : DocumentModel) : Wrapper :=
  let oldValue := w.editorText
  let newValue := model.toStr
  if oldValue ≠ newValue then w.setEditorText newValue else w

/-- `_onModelStateChanged(sender, args)`: react only to the dirty
attribute. -/
def onModelStateChanged (w : Wrapper) (model : DocumentModel) (args : IChangedArgs) : Wrapper :=
  if args.name = "dirty" then w.handleDirtyState model else w

/-- `_onCollaboratorsChanged()`: return if the roster is absent;
otherwise delete every selection entry whose key the roster does not
have (iteration over a snapshot of the keys). -/
def onCollaboratorsChanged (w : Wrapper) (collaborators : Option Roster) : Wrapper :=
  match collaborators with
  | none => w
  | some r => { w with selections := w.selections.filter fun kv => r.hasId kv.1 }

/-- The continuation run when the collaborative session connection
resolves (widget.ts lines 75-93): give the editor the local
collaborator's identity and selection style, connect the roster-changed
signal, and trigger an initial `_onCollaboratorsChanged`.  The only
guard is on an absent roster; the disposed flag is not consulted. -/
def collabContinuation (w : Wrapper) (collaborators : Option Roster) : Wrapper :=
  match collaborators with
  | none => w
  | some r =>
    let w1 := { w with uuid := r.localSessionId, selectionStyleColor := r.localColor }
    let w2 := { w1 with collabChangedConnected := true }
    w2.onCollaboratorsChanged (some r)

end Wrapper

/-- `_onContextReady()`: no-op when disposed; otherwise re-seed the
mirrored buffer from the model's serialized text, clear the editing
history, apply the dirty marker, connect the state-changed and
content-changed signals, and resolve the ready promise. -/
def onContextReady (s : Sys) : Sys :=
  if s.w.disposed then s
  else
    let w1 := s.w.setEditorText s.model.toStr
    let w2 := w1.clearHistory
    let w3 := w2.handleDirtyState s.model
    let w4 := { w3 with stateChangedConnected := true, contentChangedConnected := true }
    let w5 := { w4 with readyResolved := true }
    { s with w := w5 }

/-- Construction (widget.ts line 70): seed the mirrored buffer
synchronously from whatever the model currently holds; no signals are
connected yet. -/
def construct (model : DocumentModel) : Sys :=
  { model := model
    w :=
      (Wrapper.setEditorText
        { editorText := ""
          history := []
          bufferWrites := 0
          selections := []
          titleClassName := ""
          uuid := ""
          selectionStyleColor := ""
          disposed := false
          stateChangedConnected := false
          contentChangedConnected := false
          collabChangedConnected := false
          readyResolved := false }
        model.toStr) }

/-- Synchronous delivery of one emitted notification to the wrapper:
each connected handler runs against the model state at the moment of
emission. -/
def dispatch (w : Wrapper) (tev : Traced) : Wrapper :=
  match tev with
  | (.contentChanged, snap) =>
    if w.contentChangedConnected then w.onContentChanged snap else w
  | (.stateChanged args, snap) =>
    if w.stateChangedConnected then w.onModelStateChanged snap args else w

/-- External stimuli driving the bound system. -/
inductive Action : Type where
  | setDirty : Bool → Action
  | setReadOnly : Bool → Action
  | fromString : String → Action
  | fromJSON : JSONValue → Action
  | collabChanged : Roster → Action

/-- Run one stimulus: apply the model operation, then deliver its
emitted notifications in order; a roster-changed notification reaches
the wrapper only once the roster-changed signal is connected. -/
def step (s : Sys) (a : Action) : Sys :=
  match a with
  | .setDirty b =>
    let p := s.model.setDirty b
    { model := p.1, w := p.2.foldl dispatch s.w }
  | .setReadOnly b =>
    let p := s.model.setReadOnly b
    { model := p.1, w := p.2.foldl dispatch s.w }
  | .fromString v =>
    let p := s.model.fromString v
    { model := p.1, w := p.2.foldl dispatch s.w }
  | .fromJSON v =>
    let p := s.model.fromJSON v
    { model := p.1, w := p.2.foldl dispatch s.w }
  | .collabChanged r =>
    if s.w.collabChangedConnected then
      { s with w := s.w.onCollaboratorsChanged (some r) }
    else s

/-- The dirty-marker invariant of a bound system: the state-changed
signal is connected and the title class is a run of spaces followed by
the dirty marker exactly when the model is dirty (the spaces are the
residue JS `String.replace` leaves behind when it removes the marker). -/
def dirtyInv (s : Sys) : Prop :=
  s.w.stateChangedConnected = true ∧
    ∃ k, s.w.titleClassName.data =
      List.replicate k ' ' ++ (if s.model.dirty then DIRTY_CLASS.data else [])

/-! ## Lemmas about characters, digits and whitespace -/

theorem skipWs_cons (c : Char) (l : List Char) (h : isWs c = false) :
    skipWs (c :: l) = c :: l := by
  simp [skipWs, h]

theorem isDigit_not_ws (c : Char) (h : c.isDigit = true) : isWs c = false := by
  rcases h1 : isWs c with _ | _
  · rfl
  · exfalso
    simp only [isWs, Bool.or_eq_true, decide_eq_true_eq] at h1
    rcases h1 with ((rfl | rfl) | rfl) | rfl <;> exact absurd h (by decide)

theorem isDigit_ne (c : Char) (h : c.isDigit = true) :
    c ≠ 'n' ∧ c ≠ 't' ∧ c ≠ 'f' ∧ c ≠ '"' ∧ c ≠ '[' ∧ c ≠ '{' ∧ c ≠ '-' := by
  refine ⟨?_, ?_, ?_, ?_, ?_, ?_, ?_⟩ <;> rintro rfl <;> exact absurd h (by decide)

theorem splitDigits_append (ds rest : List Char) (h : ∀ c ∈ ds, c.isDigit = true)
    (hr : digitFree rest = true) : splitDigits (ds ++ rest) = (ds, rest) := by
  induction ds with
  | nil =>
    cases rest with
    | nil => rfl
    | cons r rs =>
      simp only [digitFree, Bool.not_eq_true'] at hr
      simp [splitDigits, hr]
  | cons d ds ih =>
    have hd := h d (by simp)
    simp only [List.cons_append, splitDigits, hd, if_pos, List.append_eq]
    rw [ih fun c hc => h c (by simp [hc])]

theorem digitsToNat_append (xs : List Char) (x : Char) :
    digitsToNat (xs ++ [x]) = digitsToNat xs * 10 + (x.toNat - 48) := by
  simp [digitsToNat, List.foldl_append]

theorem digitsToNat_revMap (L : List Nat) (h : ∀ d ∈ L, d < 10) :
    digitsToNat ((L.map digitChar).reverse) = Nat.ofDigits 10 L := by
  induction L with
  | nil => simp [digitsToNat, Nat.ofDigits]
  | cons d L ih =>
    have hd : d < 10 := h d (by simp)
    have hL : ∀ e ∈ L, e < 10 := fun e he => h e (by simp [he])
    simp only [List.map_cons, List.reverse_cons]
    rw [digitsToNat_append, ih hL, Nat.ofDigits_cons]
    have hdc : (digitChar d).toNat - 48 = d := by
      interval_cases d <;> decide
    rw [hdc]; ring

theorem natChars_digits (n : Nat) : ∀ c ∈ natChars n, c.isDigit = true := by
  intro c hc
  unfold natChars at hc
  split at hc
  · simp only [List.mem_singleton] at hc
    subst hc; decide
  · simp only [List.mem_reverse, List.mem_map] at hc
    obtain ⟨d, hd, rfl⟩ := hc
    have hlt : d < 10 := Nat.digits_lt_base (by norm_num) hd
    interval_cases d <;> decide

theorem natChars_ne_nil (n : Nat) : natChars n ≠ [] := by
  unfold natChars
  split
  · simp
  · simp_all [Nat.digits_ne_nil_iff_ne_zero]

theorem digitsToNat_natChars (n : Nat) : digitsToNat (natChars n) = n := by
  unfold natChars
  split
  · simp_all [digitsToNat]
  · rw [digitsToNat_revMap _ fun d hd => Nat.digits_lt_base (by norm_num) hd,
      Nat.ofDigits_digits]

theorem hexVal_hexChar (d : Nat) (h : d < 16) : hexVal (hexChar d) = some d := by
  interval_cases d <;> decide

theorem hexVal_zero : hexVal '0' = some 0 := by decide

/-! ## The string-literal roundtrip -/

theorem parseStrAux_escape (s rest : List Char) :
    parseStrAux (escapeChars s ++ '"' :: rest) = .ok (s, rest) := by
  induction s with
  | nil =>
    show parseStrAux ('"' :: rest) = _
    rw [parseStrAux.eq_def]; simp
  | cons c cs ih =>
    show parseStrAux ((escapeChar c ++ escapeChars cs) ++ '"' :: rest) = _
    rw [List.append_assoc]
    by_cases h1 : c = '"'
    · subst h1
      show parseStrAux ('\\' :: '"' :: (escapeChars cs ++ '"' :: rest)) = _
      rw [parseStrAux.eq_def]; simp [ih]
    by_cases h2 : c = '\\'
    · subst h2
      show parseStrAux ('\\' :: '\\' :: (escapeChars cs ++ '"' :: rest)) = _
      rw [parseStrAux.eq_def]; simp [ih]
    by_cases h3 : c = '\x08'
    · subst h3
      show parseStrAux ('\\' :: 'b' :: (escapeChars cs ++ '"' :: rest)) = _
      rw [parseStrAux.eq_def]; simp [ih]
    by_cases h4 : c = '\x0c'
    · subst h4
      show parseStrAux ('\\' :: 'f' :: (escapeChars cs ++ '"' :: rest)) = _
      rw [parseStrAux.eq_def]; simp [ih]
    by_cases h5 : c = '\n'
    · subst h5
      show parseStrAux ('\\' :: 'n' :: (escapeChars cs ++ '"' :: rest)) = _
      rw [parseStrAux.eq_def]; simp [ih]
    by_cases h6 : c = '\r'
    · subst h6
      show parseStrAux ('\\' :: 'r' :: (escapeChars cs ++ '"' :: rest)) = _
      rw [parseStrAux.eq_def]; simp [ih]
    by_cases h7 : c = '\t'
    · subst h7
      show parseStrAux ('\\' :: 't' :: (escapeChars cs ++ '"' :: rest)) = _
      rw [parseStrAux.eq_def]; simp [ih]
    by_cases h8 : c.toNat < 32
    · have hesc : escapeChar c =
          ['\\', 'u', '0', '0', hexChar (c.toNat / 16), hexChar (c.toNat % 16)] := by
        rw [escapeChar, if_neg h1, if_neg h2, if_neg h3, if_neg h4, if_neg h5, if_neg h6,
          if_neg h7, if_pos h8]
      rw [hesc]
      simp only [List.cons_append, List.nil_append]
      rw [parseStrAux.eq_def]
      have hdiv : c.toNat / 16 < 16 := by omega
      have hmod : c.toNat % 16 < 16 := by omega
      simp only [hexVal_hexChar _ hdiv, hexVal_hexChar _ hmod, hexVal_zero]
      have hval : ((0 * 16 + 0) * 16 + c.toNat / 16) * 16 + c.toNat % 16 = c.toNat := by
        omega
      have hlt : c.toNat < 55296 := by omega
      simp only [ih, hval, Char.ofNat_toNat, Nat.isValidChar]
      rw [if_pos (Or.inl hlt)]
      simp [ih]
    · have hesc : escapeChar c = [c] := by
        rw [escapeChar, if_neg h1, if_neg h2, if_neg h3, if_neg h4, if_neg h5, if_neg h6,
          if_neg h7, if_neg h8]
      rw [hesc]
      simp only [List.cons_append, List.nil_append]
      rw [parseStrAux.eq_def]
      simp [h1, h2, h8, ih]

/-! ## Unfolding lemmas for the mutual definitions -/

theorem stringifyL_null : stringifyL .null = ['n', 'u', 'l', 'l'] := by
  rw [stringifyL.eq_def]
theorem stringifyL_true : stringifyL (.bool true) = ['t', 'r', 'u', 'e'] := by
  rw [stringifyL.eq_def]
theorem stringifyL_false : stringifyL (.bool false) = ['f', 'a', 'l', 's', 'e'] := by
  rw [stringifyL.eq_def]
theorem stringifyL_num (n : Int) :
    stringifyL (.num n) = if n < 0 then '-' :: natChars n.natAbs else natChars n.natAbs := by
  rw [stringifyL.eq_def]
theorem stringifyL_str (s : String) : stringifyL (.str s) = stringLit s := by
  rw [stringifyL.eq_def]
theorem stringifyL_arr_nil : stringifyL (.arr []) = ['[', ']'] := by
  rw [stringifyL.eq_def]
theorem stringifyL_arr_cons (v : JSONValue) (vs : List JSONValue) :
    stringifyL (.arr (v :: vs)) = '[' :: (stringifyL v ++ stringifyItems vs) ++ [']'] := by
  rw [stringifyL.eq_def]
theorem stringifyL_obj_nil : stringifyL (.obj []) = ['{', '}'] := by
  rw [stringifyL.eq_def]
theorem stringifyL_obj_cons (f : String × JSONValue) (fs : List (String × JSONValue)) :
    stringifyL (.obj (f :: fs)) = '{' :: (stringifyField f ++ stringifyFields fs) ++ ['}'] := by
  rw [stringifyL.eq_def]
theorem stringifyItems_nil : stringifyItems [] = [] := by
  rw [stringifyItems.eq_def]
theorem stringifyItems_cons (v : JSONValue) (vs : List JSONValue) :
    stringifyItems (v :: vs) = ',' :: stringifyL v ++ stringifyItems vs := by
  rw [stringifyItems.eq_def]
theorem stringifyField_def (k : String) (v : JSONValue) :
    stringifyField (k, v) = stringLit k ++ ':' :: stringifyL v := by
  rw [stringifyField.eq_def]
theorem stringifyFields_nil : stringifyFields [] = [] := by
  rw [stringifyFields.eq_def]
theorem stringifyFields_cons (f : String × JSONValue) (fs : List (String × JSONValue)) :
    stringifyFields (f :: fs) = ',' :: stringifyField f ++ stringifyFields fs := by
  rw [stringifyFields.eq_def]

theorem needV_null : needV .null = 1 := by rw [needV.eq_def]
theorem needV_bool (b : Bool) : needV (.bool b) = 1 := by rw [needV.eq_def]
theorem needV_num (n : Int) : needV (.num n) = 1 := by rw [needV.eq_def]
theorem needV_str (s : String) : needV (.str s) = 1 := by rw [needV.eq_def]
theorem needV_arr_nil : needV (.arr []) = 1 := by rw [needV.eq_def]
theorem needV_arr_cons (v : JSONValue) (vs : List JSONValue) :
    needV (.arr (v :: vs)) = 1 + max (needV v) (needI vs) := by rw [needV.eq_def]
theorem needV_obj_nil : needV (.obj []) = 1 := by rw [needV.eq_def]
theorem needV_obj_cons (f : String × JSONValue) (fs : List (String × JSONValue)) :
    needV (.obj (f :: fs)) = 1 + max (needFld f) (needFs fs) := by rw [needV.eq_def]
theorem needI_nil : needI [] = 1 := by rw [needI.eq_def]
theorem needI_cons (v : JSONValue) (vs : List JSONValue) :
    needI (v :: vs) = 1 + max (needV v) (needI vs) := by rw [needI.eq_def]
theorem needFld_def (k : String) (v : JSONValue) : needFld (k, v) = 1 + needV v := by
  rw [needFld.eq_def]
theorem needFs_nil : needFs [] = 1 := by rw [needFs.eq_def]
theorem needFs_cons (f : String × JSONValue) (fs : List (String × JSONValue)) :
    needFs (f :: fs) = 1 + max (needFld f) (needFs fs) := by rw [needFs.eq_def]

theorem needV_pos (v : JSONValue) : 1 ≤ needV v := by
  cases v with
  | null => simp [needV_null]
  | bool b => simp [needV_bool]
  | num n => simp [needV_num]
  | str s => simp [needV_str]
  | arr xs => cases xs <;> simp [needV_arr_nil, needV_arr_cons]
  | obj fs => cases fs <;> simp [needV_obj_nil, needV_obj_cons]

theorem needI_pos (vs : List JSONValue) : 1 ≤ needI vs := by
  cases vs <;> simp [needI_nil, needI_cons]

theorem needFld_pos (f : String × JSONValue) : 1 ≤ needFld f := by
  obtain ⟨k, v⟩ := f; simp [needFld_def]

theorem needFs_pos (fs : List (String × JSONValue)) : 1 ≤ needFs fs := by
  cases fs <;> simp [needFs_nil, needFs_cons]

/-! ## Head-character facts used to drive the parser -/

theorem stringify_start (v : JSONValue) :
    ∃ c cs, stringifyL v = c :: cs ∧
      (c = 'n' ∨ c = 't' ∨ c = 'f' ∨ c = '"' ∨ c = '[' ∨ c = '{' ∨ c = '-' ∨
        c.isDigit = true) := by
  cases v with
  | null => exact ⟨'n', _, stringifyL_null, by tauto⟩
  | bool b =>
    cases b
    · exact ⟨'f', _, stringifyL_false, by tauto⟩
    · exact ⟨'t', _, stringifyL_true, by tauto⟩
  | num n =>
    by_cases hn : n < 0
    · exact ⟨'-', natChars n.natAbs, by rw [stringifyL_num, if_pos hn], by tauto⟩
    · obtain ⟨c, cs, hc⟩ := List.exists_cons_of_ne_nil (natChars_ne_nil n.natAbs)
      refine ⟨c, cs, by rw [stringifyL_num, if_neg hn, hc], ?_⟩
      have := natChars_digits n.natAbs c (by rw [hc]; exact List.mem_cons_self c cs)
      tauto
  | str s => exact ⟨'"', _, by rw [stringifyL_str]; rfl, by tauto⟩
  | arr xs =>
    cases xs
    · exact ⟨'[', _, stringifyL_arr_nil, by tauto⟩
    · exact ⟨'[', _, stringifyL_arr_cons _ _, by tauto⟩
  | obj fs =>
    cases fs
    · exact ⟨'{', _, stringifyL_obj_nil, by tauto⟩
    · exact ⟨'{', _, stringifyL_obj_cons _ _, by tauto⟩

theorem skipWs_stringify (v : JSONValue) (X : List Char) :
    skipWs (stringifyL v ++ X) = stringifyL v ++ X := by
  obtain ⟨c, cs, hc, hd⟩ := stringify_start v
  rw [hc, List.cons_append]
  refine skipWs_cons _ _ ?_
  rcases hd with rfl | rfl | rfl | rfl | rfl | rfl | rfl | hd
  · decide
  · decide
  · decide
  · decide
  · decide
  · decide
  · decide
  · exact isDigit_not_ws c hd

theorem headIs_stringify (x : Char) (v : JSONValue) (X : List Char)
    (hx : x = ']' ∨ x = '}' ∨ x = ',') :
    headIs x (stringifyL v ++ X) = false := by
  obtain ⟨c, cs, hc, hd⟩ := stringify_start v
  rw [hc, List.cons_append]
  show decide (c = x) = false
  rcases hx with rfl | rfl | rfl <;>
    rcases hd with rfl | rfl | rfl | rfl | rfl | rfl | rfl | hd <;>
      first
        | decide
        | (simp only [decide_eq_false_iff_not]
           rintro rfl
           exact absurd hd (by decide))

theorem digitFree_items (vs : List JSONValue) (r : List Char) :
    digitFree (stringifyItems vs ++ ']' :: r) = true := by
  cases vs with
  | nil => rw [stringifyItems_nil, List.nil_append]; rfl
  | cons v vs => rw [stringifyItems_cons, List.cons_append]; rfl

theorem digitFree_fields (fs : List (String × JSONValue)) (r : List Char) :
    digitFree (stringifyFields fs ++ '}' :: r) = true := by
  cases fs with
  | nil => rw [stringifyFields_nil, List.nil_append]; rfl
  | cons f fs => rw [stringifyFields_cons, List.cons_append]; rfl

/-! ## The printer/parser roundtrip -/

theorem skipWs_field (f : String × JSONValue) (X : List Char) :
    skipWs (stringifyField f ++ X) = stringifyField f ++ X := by
  obtain ⟨k, v⟩ := f
  rw [stringifyField_def]
  simp only [stringLit, List.cons_append, List.append_assoc]
  rw [skipWs_cons _ _ (by decide)]

theorem headIs_field (f : String × JSONValue) (X : List Char) :
    headIs '}' (stringifyField f ++ X) = false := by
  obtain ⟨k, v⟩ := f
  rw [stringifyField_def]
  simp only [stringLit, List.cons_append, List.append_assoc]
  rfl

theorem parse_print (fuel : Nat) :
    (∀ v rest, needV v ≤ fuel → digitFree rest = true →
      parseVal fuel (stringifyL v ++ rest) = .ok (v, rest)) ∧
    (∀ vs rest, needI vs ≤ fuel →
      parseItems fuel (stringifyItems vs ++ ']' :: rest) = .ok (vs, rest)) ∧
    (∀ f rest, needFld f ≤ fuel → digitFree rest = true →
      parseField fuel (stringifyField f ++ rest) = .ok (f, rest)) ∧
    (∀ fs rest, needFs fs ≤ fuel →
      parseFields fuel (stringifyFields fs ++ '}' :: rest) = .ok (fs, rest)) := by
  induction fuel with
  | zero =>
    refine ⟨?_, ?_, ?_, ?_⟩
    · intro v rest h _; exact absurd h (by have := needV_pos v; omega)
    · intro vs rest h; exact absurd h (by have := needI_pos vs; omega)
    · intro f rest h _; exact absurd h (by have := needFld_pos f; omega)
    · intro fs rest h; exact absurd h (by have := needFs_pos fs; omega)
  | succ fuel ih =>
    obtain ⟨ihV, ihI, ihF, ihFs⟩ := ih
    refine ⟨?_, ?_, ?_, ?_⟩
    · intro v rest hneed hrest
      cases v with
      | null =>
        rw [stringifyL_null, parseVal.eq_def]
        simp [skipWs, isWs, litVal, List.isPrefixOf]
      | bool b =>
        cases b
        · rw [stringifyL_false, parseVal.eq_def]
          simp [skipWs, isWs, litVal, List.isPrefixOf]
        · rw [stringifyL_true, parseVal.eq_def]
          simp [skipWs, isWs, litVal, List.isPrefixOf]
      | num n =>
        rw [stringifyL_num]
        by_cases hn : n < 0
        · rw [if_pos hn]
          have hsplit : splitDigits (natChars n.natAbs ++ rest) = (natChars n.natAbs, rest) :=
            splitDigits_append _ _ (natChars_digits _) hrest
          have habs : -(|n| : Int) = n := by rw [abs_of_neg hn]; ring
          rw [List.cons_append, parseVal.eq_def]
          dsimp only
          rw [skipWs_cons _ _ (by decide)]
          simp [parseNum, hsplit, natChars_ne_nil n.natAbs, digitsToNat_natChars, habs]
        · rw [if_neg hn]
          obtain ⟨c, cs, hc⟩ := List.exists_cons_of_ne_nil (natChars_ne_nil n.natAbs)
          have hcd : c.isDigit = true :=
            natChars_digits n.natAbs c (by rw [hc]; exact List.mem_cons_self c cs)
          obtain ⟨hne1, hne2, hne3, hne4, hne5, hne6, hne7⟩ := isDigit_ne c hcd
          have hsplit : splitDigits (natChars n.natAbs ++ rest) = (natChars n.natAbs, rest) :=
            splitDigits_append _ _ (natChars_digits _) hrest
          have habs : ((n.natAbs : Nat) : Int) = n := by omega
          rw [hc] at hsplit ⊢
          rw [List.cons_append, parseVal.eq_def]
          dsimp only
          rw [skipWs_cons _ _ (isDigit_not_ws c hcd)]
          dsimp only
          rw [if_neg hne1, if_neg hne2, if_neg hne3, if_neg hne4, if_neg hne5, if_neg hne6]
          rw [parseNum.eq_def]
          dsimp only
          rw [if_neg hne7]
          simp only [← List.cons_append, hsplit]
          have hne : (c :: cs).isEmpty = false := rfl
          simp only [hne, Bool.false_eq_true, if_false]
          have hval : digitsToNat (c :: cs) = n.natAbs := by
            rw [← hc, digitsToNat_natChars]
          simp [hval, habs]
      | str s =>
        rw [stringifyL_str]
        have hshape : stringLit s ++ rest = '"' :: (escapeChars s.data ++ '"' :: rest) := by
          simp [stringLit]
        rw [hshape, parseVal.eq_def]
        dsimp only
        rw [skipWs_cons _ _ (by decide)]
        simp [parseStrAux_escape]
      | arr xs =>
        cases xs with
        | nil =>
          rw [stringifyL_arr_nil, parseVal.eq_def]
          simp [skipWs, isWs, headIs]
        | cons v vs =>
          rw [stringifyL_arr_cons]
          have hshape : ('[' :: (stringifyL v ++ stringifyItems vs) ++ [']']) ++ rest
              = '[' :: (stringifyL v ++ (stringifyItems vs ++ ']' :: rest)) := by
            simp
          rw [hshape, parseVal.eq_def]
          dsimp only
          rw [skipWs_cons _ _ (by decide)]
          rw [needV_arr_cons] at hneed
          have h1 := ihV v (stringifyItems vs ++ ']' :: rest) (by omega) (digitFree_items vs rest)
          have h2 := ihI vs rest (by omega)
          simp [skipWs_stringify, headIs_stringify _ _ _ (by tauto), h1, h2]
      | obj fs =>
        cases fs with
        | nil =>
          rw [stringifyL_obj_nil, parseVal.eq_def]
          simp [skipWs, isWs, headIs]
        | cons f fs =>
          rw [stringifyL_obj_cons]
          have hshape : ('{' :: (stringifyField f ++ stringifyFields fs) ++ ['}']) ++ rest
              = '{' :: (stringifyField f ++ (stringifyFields fs ++ '}' :: rest)) := by
            simp
          rw [hshape, parseVal.eq_def]
          dsimp only
          rw [skipWs_cons _ _ (by decide)]
          rw [needV_obj_cons] at hneed
          have h1 := ihF f (stringifyFields fs ++ '}' :: rest) (by omega)
            (digitFree_fields fs rest)
          have h2 := ihFs fs rest (by omega)
          simp [skipWs_field, headIs_field, h1, h2]
    · intro vs rest hneed
      cases vs with
      | nil =>
        rw [stringifyItems_nil, List.nil_append, parseItems.eq_def]
        simp [skipWs, isWs, headIs]
      | cons v vs =>
        rw [stringifyItems_cons]
        have hshape : (',' :: stringifyL v ++ stringifyItems vs) ++ ']' :: rest
            = ',' :: (stringifyL v ++ (stringifyItems vs ++ ']' :: rest)) := by
          simp
        rw [hshape, parseItems.eq_def]
        dsimp only
        rw [skipWs_cons _ _ (by decide)]
        rw [needI_cons] at hneed
        have h1 := ihV v (stringifyItems vs ++ ']' :: rest) (by omega) (digitFree_items vs rest)
        have h2 := ihI vs rest (by omega)
        simp [headIs, h1, h2]
    · intro f rest hneed hrest
      obtain ⟨k, v⟩ := f
      rw [stringifyField_def]
      have hshape : (stringLit k ++ ':' :: stringifyL v) ++ rest
          = '"' :: (escapeChars k.data ++ '"' :: (':' :: (stringifyL v ++ rest))) := by
        simp [stringLit]
      rw [hshape, parseField.eq_def]
      dsimp only
      rw [skipWs_cons _ _ (by decide)]
      rw [needFld_def] at hneed
      have h1 := ihV v rest (by omega) hrest
      simp [headIs, parseStrAux_escape, skipWs_cons _ _ (by decide : isWs ':' = false), h1]
    · intro fs rest hneed
      cases fs with
      | nil =>
        rw [stringifyFields_nil, List.nil_append, parseFields.eq_def]
        simp [skipWs, isWs, headIs]
      | cons f fs =>
        rw [stringifyFields_cons]
        have hshape : (',' :: stringifyField f ++ stringifyFields fs) ++ '}' :: rest
            = ',' :: (stringifyField f ++ (stringifyFields fs ++ '}' :: rest)) := by
          simp
        rw [hshape, parseFields.eq_def]
        dsimp only
        rw [skipWs_cons _ _ (by decide)]
        rw [needFs_cons] at hneed
        have h1 := ihF f (stringifyFields fs ++ '}' :: rest) (by omega)
          (digitFree_fields fs rest)
        have h2 := ihFs fs rest (by omega)
        simp [headIs, h1, h2]
theorem need_le_len (n : Nat) :
    (∀ v, needV v ≤ n → needV v ≤ (stringifyL v).length) ∧
    (∀ vs, needI vs ≤ n → needI vs ≤ (stringifyItems vs).length + 1) ∧
    (∀ f, needFld f ≤ n → needFld f ≤ (stringifyField f).length) ∧
    (∀ fs, needFs fs ≤ n → needFs fs ≤ (stringifyFields fs).length + 1) := by
  induction n with
  | zero =>
    refine ⟨?_, ?_, ?_, ?_⟩
    · intro v h; exact absurd h (by have := needV_pos v; omega)
    · intro vs h; exact absurd h (by have := needI_pos vs; omega)
    · intro f h; exact absurd h (by have := needFld_pos f; omega)
    · intro fs h; exact absurd h (by have := needFs_pos fs; omega)
  | succ n ih =>
    obtain ⟨ihV, ihI, ihF, ihFs⟩ := ih
    refine ⟨?_, ?_, ?_, ?_⟩
    · intro v hb
      cases v with
      | null => rw [needV_null, stringifyL_null]; simp
      | bool b => cases b
                  · rw [needV_bool, stringifyL_false]; simp
                  · rw [needV_bool, stringifyL_true]; simp
      | num m =>
        rw [needV_num, stringifyL_num]
        obtain ⟨c, cs, hc⟩ := List.exists_cons_of_ne_nil (natChars_ne_nil m.natAbs)
        by_cases hm : m < 0
        · rw [if_pos hm]; simp
        · rw [if_neg hm, hc]; simp
      | str s =>
        rw [needV_str]
        simp [stringifyL_str, stringLit]
      | arr xs =>
        cases xs with
        | nil => rw [needV_arr_nil, stringifyL_arr_nil]; simp
        | cons v vs =>
          rw [needV_arr_cons] at hb ⊢
          rw [stringifyL_arr_cons]
          have h1 := ihV v (by omega)
          have h2 := ihI vs (by omega)
          simp only [List.length_append, List.length_cons, List.length_nil]
          omega
      | obj fs =>
        cases fs with
        | nil => rw [needV_obj_nil, stringifyL_obj_nil]; simp
        | cons f fs =>
          rw [needV_obj_cons] at hb ⊢
          rw [stringifyL_obj_cons]
          have h1 := ihF f (by omega)
          have h2 := ihFs fs (by omega)
          simp only [List.length_append, List.length_cons, List.length_nil]
          omega
    · intro vs hb
      cases vs with
      | nil => rw [needI_nil, stringifyItems_nil]; simp
      | cons v vs =>
        rw [needI_cons] at hb ⊢
        rw [stringifyItems_cons]
        have h1 := ihV v (by omega)
        have h2 := ihI vs (by omega)
        simp only [List.length_append, List.length_cons]
        omega
    · intro f hb
      obtain ⟨k, v⟩ := f
      rw [needFld_def] at hb ⊢
      rw [stringifyField_def]
      have h1 := ihV v (by omega)
      have hk : 2 ≤ (stringLit k).length := by simp [stringLit]
      simp only [List.length_append, List.length_cons]
      omega
    · intro fs hb
      cases fs with
      | nil => rw [needFs_nil, stringifyFields_nil]; simp
      | cons f fs =>
        rw [needFs_cons] at hb ⊢
        rw [stringifyFields_cons]
        have h1 := ihF f (by omega)
        have h2 := ihFs fs (by omega)
        simp only [List.length_append, List.length_cons]
        omega

theorem jsonParse_jsonStringify (v : JSONValue) : jsonParse (jsonStringify v) = .ok v := by
  have hlen : needV v ≤ (stringifyL v).length := (need_le_len (needV v)).1 v le_rfl
  have h := (parse_print ((stringifyL v).length + 1)).1 v [] (by omega) rfl
  rw [List.append_nil] at h
  have h2 : parseVal ((jsonStringify v).length + 1) (jsonStringify v).data = .ok (v, []) := h
  unfold jsonParse
  rw [h2]
  rfl

theorem jsonStringify_ne_empty (v : JSONValue) : jsonStringify v ≠ "" := by
  obtain ⟨c, cs, hc, _⟩ := stringify_start v
  unfold jsonStringify
  rw [hc]
  intro h
  exact absurd (congrArg String.data h) (by simp)
/-! ## Dirty-marker string lemmas -/

theorem marker_not_prefix_space (X : List Char) :
    (DIRTY_CLASS.data).isPrefixOf (' ' :: X) = false := by
  show (('j' :: "p-mod-dirty".data)).isPrefixOf (' ' :: X) = false
  simp [List.isPrefixOf]

theorem containsL_spaces (k : Nat) :
    containsL DIRTY_CLASS.data (List.replicate k ' ') = false := by
  induction k with
  | zero => decide
  | succ k ih =>
    rw [List.replicate_succ, containsL, marker_not_prefix_space, ih]
    rfl

theorem containsL_spaces_marker (k : Nat) :
    containsL DIRTY_CLASS.data (List.replicate k ' ' ++ DIRTY_CLASS.data) = true := by
  induction k with
  | zero => decide
  | succ k ih =>
    rw [List.replicate_succ, List.cons_append, containsL, marker_not_prefix_space, ih]
    rfl

theorem replaceFirstL_spaces_marker (k : Nat) :
    replaceFirstL DIRTY_CLASS.data (List.replicate k ' ' ++ DIRTY_CLASS.data)
      = List.replicate k ' ' := by
  induction k with
  | zero => decide
  | succ k ih =>
    rw [List.replicate_succ, List.cons_append, replaceFirstL, marker_not_prefix_space]
    simp only [Bool.false_eq_true, if_false, ih]

/-! ## Preservation of the dirty-marker invariant -/

theorem handleDirty_data (w : Wrapper) (m : DocumentModel) :
    (w.handleDirtyState m).titleClassName.data =
      if m.dirty then w.titleClassName.data ++ ' ' :: DIRTY_CLASS.data
      else replaceFirstL DIRTY_CLASS.data w.titleClassName.data := by
  unfold Wrapper.handleDirtyState replaceFirst
  by_cases h : m.dirty <;> simp [h, String.data_append]

theorem handleDirty_inv (w : Wrapper) (m : DocumentModel) (k : Nat)
    (h : w.titleClassName.data =
      List.replicate k ' ' ++ (if m.dirty then [] else DIRTY_CLASS.data)) :
    ∃ j, (w.handleDirtyState m).titleClassName.data =
      List.replicate j ' ' ++ (if m.dirty then DIRTY_CLASS.data else []) := by
  by_cases hd : m.dirty
  · refine ⟨k + 1, ?_⟩
    rw [handleDirty_data]
    simp only [hd, if_true, List.append_nil] at h ⊢
    rw [h, List.replicate_succ']
    simp [List.append_assoc]
  · refine ⟨k, ?_⟩
    rw [handleDirty_data]
    simp only [hd, Bool.false_eq_true, if_false] at h ⊢
    rw [h, replaceFirstL_spaces_marker]
    simp
theorem handleDirty_conn (w : Wrapper) (m : DocumentModel) :
    (w.handleDirtyState m).stateChangedConnected = w.stateChangedConnected := by
  unfold Wrapper.handleDirtyState
  split <;> rfl

theorem onContentChanged_title (w : Wrapper) (m : DocumentModel) :
    (w.onContentChanged m).titleClassName = w.titleClassName := by
  unfold Wrapper.onContentChanged Wrapper.setEditorText
  dsimp only
  split <;> rfl

theorem onContentChanged_conn (w : Wrapper) (m : DocumentModel) :
    (w.onContentChanged m).stateChangedConnected = w.stateChangedConnected := by
  unfold Wrapper.onContentChanged Wrapper.setEditorText
  dsimp only
  split <;> rfl

theorem setDirtyEvents_inv (w : Wrapper) (m : DocumentModel) (b : Bool)
    (hconn : w.stateChangedConnected = true)
    (hk : ∃ k, w.titleClassName.data =
      List.replicate k ' ' ++ (if m.dirty then DIRTY_CLASS.data else [])) :
    dirtyInv { model := (m.setDirty b).1, w := (m.setDirty b).2.foldl dispatch w } := by
  obtain ⟨k, hk⟩ := hk
  by_cases hb : b = m.dirty
  · unfold DocumentModel.setDirty
    rw [if_pos hb]
    exact ⟨hconn, k, hk⟩
  · unfold DocumentModel.setDirty
    rw [if_neg hb]
    simp only [List.foldl_cons, List.foldl_nil]
    unfold dispatch
    dsimp only
    rw [if_pos hconn]
    unfold Wrapper.onModelStateChanged
    rw [if_pos rfl]
    refine ⟨by rw [handleDirty_conn]; exact hconn, ?_⟩
    have hpre : w.titleClassName.data = List.replicate k ' ' ++
        (if ({ m with dirty := b } : DocumentModel).dirty then [] else DIRTY_CLASS.data) := by
      cases hbv : b <;> cases hdv : m.dirty <;> simp_all
    exact handleDirty_inv w { m with dirty := b } k hpre

theorem step_dirtyInv (s : Sys) (a : Action) (h : dirtyInv s) : dirtyInv (step s a) := by
  obtain ⟨hconn, k, hdata⟩ := h
  cases a with
  | setDirty b =>
    exact setDirtyEvents_inv s.w s.model b hconn ⟨k, hdata⟩
  | setReadOnly b =>
    unfold step
    dsimp only
    unfold DocumentModel.setReadOnly
    by_cases hb : b = s.model.readOnly
    · rw [if_pos hb]
      exact ⟨hconn, k, hdata⟩
    · rw [if_neg hb]
      simp only [List.foldl_cons, List.foldl_nil]
      unfold dispatch
      dsimp only
      rw [if_pos hconn]
      unfold Wrapper.onModelStateChanged
      rw [if_neg (by simp)]
      exact ⟨hconn, k, hdata⟩
  | fromString v =>
    unfold step
    dsimp only
    unfold DocumentModel.fromString DocumentModel.setValueText DocumentModel.triggerContentChange
    dsimp only
    simp only [List.foldl_cons]
    have hw1conn : (dispatch s.w (.contentChanged, { s.model with text := v })).stateChangedConnected = true := by
      unfold dispatch
      dsimp only
      split
      · rw [onContentChanged_conn]; exact hconn
      · exact hconn
    have hw1data : (dispatch s.w (.contentChanged, { s.model with text := v })).titleClassName = s.w.titleClassName := by
      unfold dispatch
      dsimp only
      split
      · rw [onContentChanged_title]
      · rfl
    exact setDirtyEvents_inv _ { s.model with text := v } true hw1conn
      ⟨k, by rw [hw1data]; exact hdata⟩
  | fromJSON v =>
    unfold step
    dsimp only
    unfold DocumentModel.fromJSON DocumentModel.fromString DocumentModel.setValueText
      DocumentModel.triggerContentChange
    dsimp only
    simp only [List.foldl_cons]
    have hw1conn : (dispatch s.w (.contentChanged, { s.model with text := jsonStringify v })).stateChangedConnected = true := by
      unfold dispatch
      dsimp only
      split
      · rw [onContentChanged_conn]; exact hconn
      · exact hconn
    have hw1data : (dispatch s.w (.contentChanged, { s.model with text := jsonStringify v })).titleClassName = s.w.titleClassName := by
      unfold dispatch
      dsimp only
      split
      · rw [onContentChanged_title]
      · rfl
    exact setDirtyEvents_inv _ { s.model with text := jsonStringify v } true hw1conn
      ⟨k, by rw [hw1data]; exact hdata⟩
  | collabChanged r =>
    unfold step
    dsimp only
    split
    · refine ⟨?_, k, ?_⟩
      · show (s.w.onCollaboratorsChanged (some r)).stateChangedConnected = true
        unfold Wrapper.onCollaboratorsChanged
        exact hconn
      · show (s.w.onCollaboratorsChanged (some r)).titleClassName.data = _
        unfold Wrapper.onCollaboratorsChanged
        exact hdata
    · exact ⟨hconn, k, hdata⟩

theorem foldl_step_dirtyInv (acts : List Action) (s : Sys) (h : dirtyInv s) :
    dirtyInv (acts.foldl step s) := by
  induction acts generalizing s with
  | nil => exact h
  | cons a acts ih => exact ih (step s a) (step_dirtyInv s a h)

theorem onContextReady_dirtyInv (s : Sys) (h1 : s.w.disposed = false)
    (h2 : s.w.titleClassName = "") : dirtyInv (onContextReady s) := by
  unfold onContextReady
  rw [if_neg (by simp [h1])]
  refine ⟨rfl, ?_⟩
  have hbase : (s.w.setEditorText s.model.toStr).clearHistory.titleClassName = "" := h2
  by_cases hd : s.model.dirty
  · refine ⟨1, ?_⟩
    show ((s.w.setEditorText s.model.toStr).clearHistory.handleDirtyState s.model).titleClassName.data = _
    rw [handleDirty_data, hbase]
    simp [hd]
  · refine ⟨0, ?_⟩
    show ((s.w.setEditorText s.model.toStr).clearHistory.handleDirtyState s.model).titleClassName.data = _
    rw [handleDirty_data, hbase]
    simp [hd, replaceFirstL]
/-! ## Claim theorems -/

theorem handleDirty_editorText (w : Wrapper) (m : DocumentModel) :
    (w.handleDirtyState m).editorText = w.editorText := by
  unfold Wrapper.handleDirtyState
  split <;> rfl

theorem handleDirty_history (w : Wrapper) (m : DocumentModel) :
    (w.handleDirtyState m).history = w.history := by
  unfold Wrapper.handleDirtyState
  split <;> rfl

/-- Claim C1: for every context whose readiness promise resolves while
the widget is not disposed, immediately after the readiness handler runs
the editor adapter text value equals the document model serialized text
(`model.toString()`), and the adapter editing history is empty (the
initial load is not undoable). -/
theorem claim_C1 (s : Sys) (h : s.w.disposed = false) :
    (onContextReady s).w.editorText = (onContextReady s).model.toStr ∧
    (onContextReady s).w.history = [] := by
  unfold onContextReady
  rw [if_neg (by simp [h])]
  dsimp only
  constructor
  · rw [handleDirty_editorText]
    rfl
  · rw [handleDirty_history]
    rfl

/-- Witness for claim C1 at a concrete system state. -/
theorem claim_C1_witness :
    ({ model := { text := "hello", dirty := false, readOnly := false, defaultLang := "" },
       w := { editorText := "", history := ["stale"], bufferWrites := 5, selections := [],
              titleClassName := "", uuid := "", selectionStyleColor := "", disposed := false,
              stateChangedConnected := false, contentChangedConnected := false,
              collabChangedConnected := false, readyResolved := false } } : Sys).w.disposed
        = false ∧
    ((onContextReady
      { model := { text := "hello", dirty := false, readOnly := false, defaultLang := "" },
        w := { editorText := "", history := ["stale"], bufferWrites := 5, selections := [],
               titleClassName := "", uuid := "", selectionStyleColor := "", disposed := false,
               stateChangedConnected := false, contentChangedConnected := false,
               collabChangedConnected := false, readyResolved := false } }).w.editorText
      = (onContextReady
      { model := { text := "hello", dirty := false, readOnly := false, defaultLang := "" },
        w := { editorText := "", history := ["stale"], bufferWrites := 5, selections := [],
               titleClassName := "", uuid := "", selectionStyleColor := "", disposed := false,
               stateChangedConnected := false, contentChangedConnected := false,
               collabChangedConnected := false, readyResolved := false } }).model.toStr ∧
     (onContextReady
      { model := { text := "hello", dirty := false, readOnly := false, defaultLang := "" },
        w := { editorText := "", history := ["stale"], bufferWrites := 5, selections := [],
               titleClassName := "", uuid := "", selectionStyleColor := "", disposed := false,
               stateChangedConnected := false, contentChangedConnected := false,
               collabChangedConnected := false, readyResolved := false } }).w.history = []) :=
  ⟨rfl, claim_C1 _ rfl⟩

/-- Claim C2: delivering a content-changed notification mutates the
adapter text buffer (observed by the ghost write counter) exactly when
the model serialized text differs from the adapter current value; when
the two are equal the handler is a complete no-op, and in either case
the buffer afterwards equals the model text. -/
theorem claim_C2 (w : Wrapper) (m : DocumentModel) :
    ((w.onContentChanged m).bufferWrites
        = w.bufferWrites + (if m.toStr = w.editorText then 0 else 1)) ∧
    (m.toStr = w.editorText → w.onContentChanged m = w) ∧
    ((w.onContentChanged m).editorText = m.toStr) := by
  unfold Wrapper.onContentChanged Wrapper.setEditorText
  dsimp only
  by_cases h : w.editorText ≠ m.toStr
  · rw [if_pos h]
    refine ⟨?_, ?_, rfl⟩
    · rw [if_neg fun hh => h hh.symm]
    · intro hh; exact absurd hh.symm h
  · rw [if_neg h]
    push_neg at h
    refine ⟨?_, fun _ => rfl, h⟩
    rw [if_pos h.symm, Nat.add_zero]

/-- Witness for claim C2: equal strings produce no mutation. -/
theorem claim_C2_witness :
    (DocumentModel.toStr { text := "abc", dirty := true, readOnly := false, defaultLang := "" }
      = ({ editorText := "abc", history := [], bufferWrites := 0, selections := [],
           titleClassName := "", uuid := "", selectionStyleColor := "", disposed := false,
           stateChangedConnected := true, contentChangedConnected := true,
           collabChangedConnected := false, readyResolved := true } : Wrapper).editorText) ∧
    Wrapper.onContentChanged
        { editorText := "abc", history := [], bufferWrites := 0, selections := [],
          titleClassName := "", uuid := "", selectionStyleColor := "", disposed := false,
          stateChangedConnected := true, contentChangedConnected := true,
          collabChangedConnected := false, readyResolved := true }
        { text := "abc", dirty := true, readOnly := false, defaultLang := "" }
      = { editorText := "abc", history := [], bufferWrites := 0, selections := [],
          titleClassName := "", uuid := "", selectionStyleColor := "", disposed := false,
          stateChangedConnected := true, contentChangedConnected := true,
          collabChangedConnected := false, readyResolved := true } :=
  ⟨rfl, (claim_C2 _ _).2.1 rfl⟩

/-- Claim C3: the dirty and read-only setters are silent no-ops when the
new value equals the current one, and otherwise update the flag and emit
exactly one state-changed notification whose payload carries the
attribute name, the previous value and the new value. -/
theorem claim_C3 (m : DocumentModel) (b : Bool) :
    ((m.setDirty b).1 = { m with dirty := b } ∧
      (m.setDirty b).2 = (if b = m.dirty then ([] : List Traced)
        else [(.stateChanged { name := "dirty", oldValue := m.dirty, newValue := b },
               { m with dirty := b })])) ∧
    ((m.setReadOnly b).1 = { m with readOnly := b } ∧
      (m.setReadOnly b).2 = (if b = m.readOnly then ([] : List Traced)
        else [(.stateChanged { name := "readOnly", oldValue := m.readOnly, newValue := b },
               { m with readOnly := b })])) := by
  refine ⟨⟨?_, ?_⟩, ?_, ?_⟩
  · unfold DocumentModel.setDirty
    by_cases h : b = m.dirty
    · rw [if_pos h]; subst h; rfl
    · rw [if_neg h]
  · unfold DocumentModel.setDirty
    by_cases h : b = m.dirty
    · rw [if_pos h, if_pos h]
    · rw [if_neg h, if_neg h]
  · unfold DocumentModel.setReadOnly
    by_cases h : b = m.readOnly
    · rw [if_pos h]; subst h; rfl
    · rw [if_neg h]
  · unfold DocumentModel.setReadOnly
    by_cases h : b = m.readOnly
    · rw [if_pos h, if_pos h]
    · rw [if_neg h, if_neg h]

/-- Claim C4: `fromString` always emits a content-changed notification,
with the updated model as the state observed at emission, even when the
new string equals the current buffer content: the trace is never empty. -/
theorem claim_C4 (m : DocumentModel) (s : String) :
    (m.fromString s).2.head? = some (.contentChanged, { m with text := s }) := by
  unfold DocumentModel.fromString DocumentModel.setValueText DocumentModel.triggerContentChange
  rfl

/-- Claim C5: after binding (the readiness handler has run on an
undisposed widget whose title class starts empty), the title class
contains the dirty marker exactly when the model dirty flag is set,
across any sequence of model mutations and roster notifications. -/
theorem claim_C5 (s : Sys) (h1 : s.w.disposed = false) (h2 : s.w.titleClassName = "")
    (acts : List Action) :
    containsSub DIRTY_CLASS (acts.foldl step (onContextReady s)).w.titleClassName
      = (acts.foldl step (onContextReady s)).model.dirty := by
  obtain ⟨-, k, hdata⟩ := foldl_step_dirtyInv acts _ (onContextReady_dirtyInv s h1 h2)
  unfold containsSub
  rw [hdata]
  by_cases hd : (acts.foldl step (onContextReady s)).model.dirty
  · simp only [hd, if_true, containsL_spaces_marker]
  · rw [Bool.not_eq_true] at hd
    simp only [hd, Bool.false_eq_true, if_false, List.append_nil, containsL_spaces]

/-- Witness for claim C5 on a concrete run: mark dirty, edit, clean,
edit again. -/
theorem claim_C5_witness :
    (construct { text := "", dirty := false, readOnly := false, defaultLang := "" }).w.disposed
        = false ∧
    (construct { text := "", dirty := false, readOnly := false, defaultLang := "" }).w.titleClassName
        = "" ∧
    containsSub DIRTY_CLASS
        (([Action.setDirty true, Action.fromString "x", Action.setDirty false,
           Action.setDirty true].foldl step
          (onContextReady
            (construct { text := "", dirty := false, readOnly := false, defaultLang := "" }))).w.titleClassName)
      = ([Action.setDirty true, Action.fromString "x", Action.setDirty false,
          Action.setDirty true].foldl step
          (onContextReady
            (construct { text := "", dirty := false, readOnly := false, defaultLang := "" }))).model.dirty ∧
    ([Action.setDirty true, Action.fromString "x", Action.setDirty false,
      Action.setDirty true].foldl step
      (onContextReady
        (construct { text := "", dirty := false, readOnly := false, defaultLang := "" }))).model.dirty
      = true :=
  ⟨rfl, rfl, claim_C5 _ rfl rfl _, by decide⟩

/-- Claim C6: serializing a value into the model with `fromJSON` and
reading it back with `toJSON` returns exactly the value (round-trip
through the string form via JSON serialization and parsing). -/
theorem claim_C6 (m : DocumentModel) (v : JSONValue) :
    ((m.fromJSON v).1).toJSON = .ok v := by
  have htext : ((m.fromJSON v).1).text = jsonStringify v := by
    unfold DocumentModel.fromJSON DocumentModel.fromString DocumentModel.setValueText
      DocumentModel.triggerContentChange DocumentModel.setDirty
    dsimp only
    split <;> rfl
  unfold DocumentModel.toJSON
  rw [htext, if_neg (jsonStringify_ne_empty v), jsonParse_jsonStringify]

/-- Counterexample to claim C7 as stated: with a non-JSON-parseable
buffer, the parse failure surfaces in `toJSON`, while `fromJSON` (which
only stringifies) completes normally and never raises a parse error. -/
theorem claim_C7_counterexample :
    (DocumentModel.toJSON
      { text := "\x7b", dirty := false, readOnly := false, defaultLang := "" }).isOk = false ∧
    ((DocumentModel.fromJSON
      { text := "\x7b", dirty := false, readOnly := false, defaultLang := "" } .null).1).text
      = "null" := by
  constructor
  · decide
  · rfl

/-- Claim C7 (amended): the parsing accessor `toJSON` propagates the
parse result unrecovered — on a non-empty buffer it returns exactly
`JSON.parse` of the buffer (failing with the parse error when the buffer
is malformed) — and on an empty buffer it succeeds with the null value. -/
theorem claim_C7 (m : DocumentModel) :
    (m.text = "" → m.toJSON = .ok .null) ∧
    (m.text ≠ "" → m.toJSON = jsonParse m.text) := by
  constructor
  · intro h
    unfold DocumentModel.toJSON
    rw [if_pos h]
    have hnull : jsonStringify JSONValue.null = "null" := rfl
    rw [← hnull, jsonParse_jsonStringify]
  · intro h
    unfold DocumentModel.toJSON
    rw [if_neg h]

/-- Witness for claim C7 at concrete buffers. -/
theorem claim_C7_witness :
    DocumentModel.toJSON { text := "", dirty := false, readOnly := false, defaultLang := "" }
        = .ok .null ∧
    DocumentModel.toJSON { text := "[1", dirty := false, readOnly := false, defaultLang := "" }
        = jsonParse "[1" :=
  ⟨(claim_C7 _).1 rfl, (claim_C7 _).2 (by decide)⟩

/-- Counterexample to claim C8 as stated: the collaborative-session
continuation does not check the disposed flag — on a disposed wrapper
with a present roster it still mutates the editor identity. -/
theorem claim_C8_counterexample :
    ({ editorText := "", history := [], bufferWrites := 0, selections := [("b", "r")],
       titleClassName := "", uuid := "", selectionStyleColor := "", disposed := true,
       stateChangedConnected := false, contentChangedConnected := false,
       collabChangedConnected := false, readyResolved := false } : Wrapper).disposed = true ∧
    Wrapper.collabContinuation
        { editorText := "", history := [], bufferWrites := 0, selections := [("b", "r")],
          titleClassName := "", uuid := "", selectionStyleColor := "", disposed := true,
          stateChangedConnected := false, contentChangedConnected := false,
          collabChangedConnected := false, readyResolved := false }
        (some { localSessionId := "sess", localColor := "red", members := ["a"] })
      ≠ { editorText := "", history := [], bufferWrites := 0, selections := [("b", "r")],
          titleClassName := "", uuid := "", selectionStyleColor := "", disposed := true,
          stateChangedConnected := false, contentChangedConnected := false,
          collabChangedConnected := false, readyResolved := false } := by
  exact ⟨rfl, by decide⟩

/-- Claim C8 (amended): the context-readiness continuation checks the
disposed flag and is a no-op on a disposed widget; the
collaborative-session continuation guards only against an absent roster
(no-op when the roster is null) and performs no disposed check. -/
theorem claim_C8 (s : Sys) (w : Wrapper) :
    (s.w.disposed = true → onContextReady s = s) ∧
    w.collabContinuation none = w := by
  constructor
  · intro h
    unfold onContextReady
    rw [if_pos h]
  · rfl

/-- Witness for claim C8 on a concrete disposed system. -/
theorem claim_C8_witness :
    onContextReady
        { model := { text := "t", dirty := false, readOnly := false, defaultLang := "" },
          w := { editorText := "", history := [], bufferWrites := 0, selections := [],
                 titleClassName := "", uuid := "", selectionStyleColor := "", disposed := true,
                 stateChangedConnected := false, contentChangedConnected := false,
                 collabChangedConnected := false, readyResolved := false } }
      = { model := { text := "t", dirty := false, readOnly := false, defaultLang := "" },
          w := { editorText := "", history := [], bufferWrites := 0, selections := [],
                 titleClassName := "", uuid := "", selectionStyleColor := "", disposed := true,
                 stateChangedConnected := false, contentChangedConnected := false,
                 collabChangedConnected := false, readyResolved := false } } ∧
    Wrapper.collabContinuation
        { editorText := "", history := [], bufferWrites := 0, selections := [],
          titleClassName := "", uuid := "", selectionStyleColor := "", disposed := false,
          stateChangedConnected := false, contentChangedConnected := false,
          collabChangedConnected := false, readyResolved := false } none
      = { editorText := "", history := [], bufferWrites := 0, selections := [],
          titleClassName := "", uuid := "", selectionStyleColor := "", disposed := false,
          stateChangedConnected := false, contentChangedConnected := false,
          collabChangedConnected := false, readyResolved := false } := by
  constructor
  · exact (claim_C8 _
      { editorText := "", history := [], bufferWrites := 0, selections := [],
        titleClassName := "", uuid := "", selectionStyleColor := "", disposed := false,
        stateChangedConnected := false, contentChangedConnected := false,
        collabChangedConnected := false, readyResolved := false }).1 rfl
  · exact (claim_C8
      { model := { text := "t", dirty := false, readOnly := false, defaultLang := "" },
        w := { editorText := "", history := [], bufferWrites := 0, selections := [],
               titleClassName := "", uuid := "", selectionStyleColor := "", disposed := true,
               stateChangedConnected := false, contentChangedConnected := false,
               collabChangedConnected := false, readyResolved := false } } _).2

/-- Claim C9: a roster-changed notification with a present roster prunes
exactly the selection entries whose key the roster lacks: an entry
survives the handler precisely when it was there before and its key is
in the roster; an absent roster leaves the adapter unchanged. -/
theorem claim_C9 (w : Wrapper) (r : Roster) (k sel : String) :
    ((k, sel) ∈ (w.onCollaboratorsChanged (some r)).selections ↔
      (k, sel) ∈ w.selections ∧ r.hasId k = true) ∧
    w.onCollaboratorsChanged none = w := by
  constructor
  · unfold Wrapper.onCollaboratorsChanged
    simp [List.mem_filter]
  · rfl

/-- Claim C10: a buffer change emits the content-changed notification
first, while the dirty flag still holds its previous value (so a handler
observes the pre-change dirty state, in particular `false` on the first
edit of a clean model), and only afterwards the dirty state-changed
notification, when the flag actually flips. -/
theorem claim_C10 (m : DocumentModel) (s : String) :
    m.triggerContentChange.2 = (.contentChanged, m) :: (m.setDirty true).2 ∧
    (m.fromString s).2 =
      (.contentChanged, { m with text := s }) ::
        (if m.dirty then []
         else [(.stateChanged { name := "dirty", oldValue := false, newValue := true },
                { m with text := s, dirty := true })]) := by
  constructor
  · rfl
  · unfold DocumentModel.fromString DocumentModel.setValueText DocumentModel.triggerContentChange
      DocumentModel.setDirty
    dsimp only
    by_cases h : m.dirty
    · rw [if_pos h, if_pos (by simp [h])]
    · rw [if_neg h, if_neg (by simp [h])]
      rw [Bool.not_eq_true] at h
      rw [h]
end JLab
